import Mathlib

/-!
Verification of the rename-decision logic of the PDF-Renamer application
(`pythonRenamer.py`).  The GUI shell and the PDF rendering pipeline are
external collaborators; the state of interest is the tuple
(folder, pdf_files, current_index, duplicate_handling_choice, open document),
and the operations are `rename_current`, `skip_current`, `prev_file`,
`next_file` and the folder-selection loop `_select_and_load_new_folder_core`.

The filesystem is modelled as a finite set (list) of existing paths; the
interactive oracles (the text in the name entry, the duplicate dialog's
outcome, whether `os.rename` raises, the folder-selection dialog answers)
are explicit inputs.  Observable effects (closing/opening the document,
the rename system call, error reporting, the duplicate dialog being shown)
are recorded in an event trace.
-/

namespace PDFRenamer

/-- Result of a click in the duplicate dialog: the string stored in
`result_action[0]` by `set_action_and_close` (one of `"rename_again"`,
`"add_numbering"`, `"skip"`). -/
inductive DupAction where
  | rename_again
  | add_numbering
  | skip
deriving DecidableEq, Repr

/-- Value of `self.duplicate_handling_choice`: either the initial `"ask"` or a
remembered concrete action. -/
inductive DupChoice where
  | ask
  | always (a : DupAction)
deriving DecidableEq, Repr

/-- Observable effects of the controller, in program order. -/
inductive Event where
  /-- `messagebox.showinfo` (informational message, no state change). -/
  | infoShown
  /-- `self.doc.close()` inside `_close_current_doc` (only emitted when a
  document was actually open). -/
  | closeDoc
  /-- `fitz.open` on the file at the given index inside `load_file`. -/
  | openDoc (idx : Nat)
  /-- The duplicate dialog (`duplicate_dialog`) was presented to the user. -/
  | dialogShown
  /-- The `os.rename(src, dst)` system call was issued. -/
  | renameAttempt (src dst : String)
  /-- `messagebox.showerror` for a failed rename; carries the source file
  name and the basename of the attempted destination, exactly as in the
  message `f"Error renaming '{current_file}' to '{os.path.basename(new_file_path)}'"`. -/
  | renameError (srcName dstBaseName : String)
  /-- `load_file` was called with an index past the end of the list: the
  "all files processed" (or "no PDF files") dialog.  The interactive
  continuation (exit or change folder) is a separate user action. -/
  | finishedSignal
deriving DecidableEq, Repr

/-- The mutable state of the `PDFRenamer` object that the rename logic
reads and writes.  `doc_open` abstracts `self.doc is not None`. -/
structure RenamerState where
  folder : String
  pdf_files : List String
  current_index : Int
  duplicate_handling_choice : DupChoice
  doc_open : Bool
deriving DecidableEq, Repr

/-- `os.path.join(folder, name)` for the POSIX separator.  All joins in the
program are of the active folder with a bare file name. -/
def pathJoin (folder name : String) : String := folder ++ "/" ++ name

/-- `os.path.basename`: the part of the path after the last separator. -/
def basename (p : String) : String :=
  String.mk ((p.data.reverse.takeWhile (fun c => c ≠ '/')).reverse)

/-- `os.path.splitext(s)[1]`: the extension, i.e. the suffix starting at the
last dot, provided some character before that dot (within the last path
component; names here contain no separator) is not itself a dot.  Leading
dots never start an extension: `splitextExt ".pdf" = ""`. -/
def splitextExt (s : String) : String :=
  let rev := s.data.reverse
  let afterRev := rev.takeWhile (fun c => c ≠ '.')
  if afterRev.length = rev.length then ""
  else
    let beforeRev := rev.drop (afterRev.length + 1)
    if beforeRev.all (fun c => c = '.') then ""
    else String.mk ('.' :: afterRev.reverse)

/-- Python's `str.strip()`: remove leading and trailing whitespace. -/
def strip (s : String) : String :=
  String.mk
    (((s.data.dropWhile Char.isWhitespace).reverse.dropWhile
        Char.isWhitespace).reverse)

/-- The file name proposed by "add numbering" for a given counter value:
`f"{base_for_numbering}({count}){ext}"`. -/
def numberedName (base : String) (count : Nat) (ext : String) : String :=
  base ++ "(" ++ toString count ++ ")" ++ ext

/-- The probing loop of the "add numbering" branch: starting at `count`,
return the first candidate path not present in `fs`.  The Python loop is
unbounded; here it carries fuel, and `addNumbering` supplies enough fuel
for any folder in which a free numbered name exists among the first
`fs.length + 1` candidates (always the case for a real directory listing,
since the candidates are pairwise distinct). -/
def addNumberingLoop (fs : List String) (folder base ext : String) :
    Nat → Nat → String
  | count, 0 => pathJoin folder (numberedName base count ext)
  | count, fuel + 1 =>
    let candidate := pathJoin folder (numberedName base count ext)
    if candidate ∈ fs then addNumberingLoop fs folder base ext (count + 1) fuel
    else candidate

/-- The "add numbering" algorithm of `rename_current` (lines 403-412):
`count` starts at 1 and is incremented while the candidate path exists. -/
def addNumbering (fs : List String) (folder base ext : String) : String :=
  addNumberingLoop fs folder base ext 1 (fs.length + 1)

/-- `_close_current_doc`: closes the document if one is open (emitting
`closeDoc`), otherwise does nothing. -/
def _close_current_doc (st : RenamerState) : RenamerState × List Event :=
  if st.doc_open then ({ st with doc_open := false }, [Event.closeDoc])
  else (st, [])

/-- `load_file(index)`: closes any open document, then either opens the file
at `index` or, when `index >= len(pdf_files)`, signals that all files are
processed (the interactive continuation of that dialog — exiting or changing
folder — is a separate user action and is modelled as the signal alone).
Every call site passes a nonnegative index. -/
def load_file (st : RenamerState) (index : Int) : RenamerState × List Event :=
  let c := _close_current_doc st
  if (st.pdf_files.length : Int) ≤ index then
    (c.1, c.2 ++ [Event.finishedSignal])
  else
    ({ c.1 with doc_open := true }, c.2 ++ [Event.openDoc index.toNat])

/-- `skip_current`: close the document, advance the index, load the next
file. -/
def skip_current (st : RenamerState) : RenamerState × List Event :=
  let c := _close_current_doc st
  let st2 : RenamerState := { c.1 with current_index := c.1.current_index + 1 }
  let l := load_file st2 st2.current_index
  (l.1, c.2 ++ l.2)

/-- `prev_file`: step back one file (floor 0; at the first file only an
informational message is shown). -/
def prev_file (st : RenamerState) : RenamerState × List Event :=
  if 0 < st.current_index then
    let st1 : RenamerState := { st with current_index := st.current_index - 1 }
    load_file st1 st1.current_index
  else (st, [Event.infoShown])

/-- `next_file`: step forward one file (only below `len(pdf_files) - 1`; at
the last file only an informational message is shown). -/
def next_file (st : RenamerState) : RenamerState × List Event :=
  if st.current_index < (st.pdf_files.length : Int) - 1 then
    let st1 : RenamerState := { st with current_index := st.current_index + 1 }
    load_file st1 st1.current_index
  else (st, [Event.infoShown])

/-- The interactive inputs consumed by one invocation of `rename_current`:
the raw text of the name entry, the set of existing paths (the
`os.path.exists` oracle), the duplicate dialog's outcome (`None` when the
dialog is dismissed without a choice) and remember-flag, whether `os.rename`
succeeds, and the platform's `os.path.normcase` (identity on POSIX,
lower-casing on Windows).  `os.path.abspath` is the identity here because the
active folder is always an absolute path. -/
structure RenameInput where
  new_name_entry : String
  fs : List String
  dialog_action : Option DupAction
  dialog_remember : Bool
  rename_ok : Bool
  normcase : String → String

/-- Result of one controller step: the new object state, the new filesystem
contents, and the trace of observable effects. -/
structure StepResult where
  state : RenamerState
  fs : List String
  events : List Event

/-- The guard of `rename_current` (line 367): the list is nonempty and the
index is a valid position. -/
def validIndex (st : RenamerState) : Prop :=
  st.pdf_files ≠ [] ∧ 0 ≤ st.current_index ∧
    st.current_index < (st.pdf_files.length : Int)

instance (st : RenamerState) : Decidable (validIndex st) := by
  unfold validIndex; infer_instance

/-- `self.pdf_files[self.current_index]` (defined when `validIndex` holds). -/
def currentFile (st : RenamerState) : String :=
  st.pdf_files.getD st.current_index.toNat ""

/-- `old_file_path = os.path.join(self.folder, current_file)`. -/
def oldPath (st : RenamerState) : String := pathJoin st.folder (currentFile st)

/-- `new_file_path` before any duplicate handling:
`os.path.join(self.folder, new_name_base + ext)` with
`new_name_base = self.name_entry.get().strip()` and
`ext = os.path.splitext(current_file)[1]`. -/
def newPath (st : RenamerState) (entry : String) : String :=
  pathJoin st.folder (strip entry ++ splitextExt (currentFile st))

/-- The duplicate action in force for a collision: the remembered choice when
`duplicate_handling_choice != "ask"`, otherwise whatever the dialog returns
(`none` when it is dismissed). -/
def resolvedAction (st : RenamerState) (inp : RenameInput) : Option DupAction :=
  match st.duplicate_handling_choice with
  | DupChoice.always a => some a
  | DupChoice.ask => inp.dialog_action

/-- The state after the duplicate-choice bookkeeping of lines 392-398: a
concrete dialog choice made with the remember flag set is persisted into
`duplicate_handling_choice`; a dismissal (`None`) is never persisted, and
when a choice is already remembered the dialog is not consulted at all. -/
def afterChoiceBookkeeping (st : RenamerState) (inp : RenameInput) :
    RenamerState :=
  match st.duplicate_handling_choice, inp.dialog_action, inp.dialog_remember with
  | DupChoice.ask, some a, true =>
    { st with duplicate_handling_choice := DupChoice.always a }
  | _, _, _ => st

/-- The events of the duplicate-handling block: the dialog is shown exactly
when no choice is remembered. -/
def choiceEvents (st : RenamerState) : List Event :=
  match st.duplicate_handling_choice with
  | DupChoice.ask => [Event.dialogShown]
  | DupChoice.always _ => []

/-- Lines 419-440 of `rename_current`: close the document, issue
`os.rename(old_file_path, new_file_path)`; on success replace the list entry
at the current index with `os.path.basename(new_file_path)` and advance; on
failure report the error (with the source file name and the destination
basename) and reload the same file without touching list or index. -/
def attemptRename (st : RenamerState) (fs : List String) (rename_ok : Bool)
    (old_file_path new_file_path current_file : String) (pre : List Event) :
    StepResult :=
  let c := _close_current_doc st
  let evs := pre ++ c.2 ++ [Event.renameAttempt old_file_path new_file_path]
  if rename_ok then
    let final_renamed_filename := basename new_file_path
    let files := c.1.pdf_files.set c.1.current_index.toNat final_renamed_filename
    let st2 : RenamerState :=
      { c.1 with pdf_files := files, current_index := c.1.current_index + 1 }
    let l := load_file st2 st2.current_index
    ⟨l.1, new_file_path :: fs.erase old_file_path, evs ++ l.2⟩
  else
    let evs2 := evs ++ [Event.renameError current_file (basename new_file_path)]
    let l := load_file c.1 c.1.current_index
    ⟨l.1, fs, evs2 ++ l.2⟩

/-- `rename_current`, the core controller step (lines 364-440).  Branches, in
source order: guard on a valid index; the no-op case (normalised absolute
paths compare equal); the collision case with duplicate resolution
(`rename_again` / `add_numbering` / `skip` / dismissed); the rename attempt. -/
def rename_current (st : RenamerState) (inp : RenameInput) : StepResult :=
  if validIndex st then
    let current_file := currentFile st
    let old_file_path := oldPath st
    let new_file_path := newPath st inp.new_name_entry
    if inp.normcase new_file_path = inp.normcase old_file_path then
      let c := _close_current_doc st
      let st2 : RenamerState := { c.1 with current_index := c.1.current_index + 1 }
      let l := load_file st2 st2.current_index
      ⟨l.1, inp.fs, c.2 ++ l.2⟩
    else if new_file_path ∈ inp.fs then
      let st' := afterChoiceBookkeeping st inp
      let devs := choiceEvents st
      match resolvedAction st inp with
      | some DupAction.rename_again => ⟨st', inp.fs, devs⟩
      | some DupAction.add_numbering =>
        let numbered_path :=
          addNumbering inp.fs st.folder (strip inp.new_name_entry)
            (splitextExt current_file)
        attemptRename st' inp.fs inp.rename_ok old_file_path numbered_path
          current_file devs
      | some DupAction.skip =>
        let s := skip_current st'
        ⟨s.1, inp.fs, devs ++ s.2⟩
      | none => ⟨st', inp.fs, devs⟩
    else
      attemptRename st inp.fs inp.rename_ok old_file_path new_file_path
        current_file []
  else ⟨st, inp.fs, [Event.infoShown]⟩

/-- One round of the folder-selection dialog: `none` models a cancelled
`askdirectory` (with `exit_answer` the subsequent "exit?" answer), `some f`
a selected directory. -/
structure FolderAttempt where
  selection : Option String
  exit_answer : Bool
deriving DecidableEq, Repr

/-- `_select_and_load_new_folder_core`, with the directory scan
(`_find_pdf_files`) as an oracle and the user's successive dialog answers as
a finite list.  Returns the new state and the method's boolean result.
Cancelling returns `not exit_answer` without touching the state; selecting
the current folder while files are loaded returns success without rescanning;
a folder with PDFs is installed with the index reset to 0 (closing any open
document); a folder without PDFs re-prompts. -/
def select_core (scan : String → List String) :
    RenamerState → List FolderAttempt → RenamerState × Bool
  | st, [] => (st, false)
  | st, att :: rest =>
    match att.selection with
    | none => (st, !att.exit_answer)
    | some new_folder =>
      if new_folder = st.folder ∧ st.pdf_files ≠ [] then (st, true)
      else
        let candidate_files := scan new_folder
        if candidate_files ≠ [] then
          ({ st with folder := new_folder, pdf_files := candidate_files,
                     current_index := 0, doc_open := false }, true)
        else select_core scan st rest

/-- `change_folder`: run the selection loop; on success load the file at the
(possibly reset) current index, otherwise only report. -/
def change_folder (scan : String → List String) (st : RenamerState)
    (attempts : List FolderAttempt) : RenamerState × List Event :=
  let s := select_core scan st attempts
  if s.2 then load_file s.1 s.1.current_index
  else (s.1, [Event.infoShown])

/-- Runs over a trace checking the document-handle discipline: returns `true`
iff, starting from the given open/closed state, some `renameAttempt` or
`openDoc` is issued while a document handle is still open. -/
def docDisciplineViolation : Bool → List Event → Bool
  | _, [] => false
  | b, Event.renameAttempt _ _ :: r => b || docDisciplineViolation b r
  | b, Event.openDoc _ :: r => b || docDisciplineViolation true r
  | _, Event.closeDoc :: r => docDisciplineViolation false r
  | b, _ :: r => docDisciplineViolation b r

/-- The open/closed state of the document handle after a trace of events. -/
def runDoc : Bool → List Event → Bool
  | b, [] => b
  | _, Event.closeDoc :: r => runDoc false r
  | _, Event.openDoc _ :: r => runDoc true r
  | b, _ :: r => runDoc b r

/-- The spec's Cursor invariant: `Cursor ∈ [0, len(FileList)]`. -/
def cursorInv (st : RenamerState) : Prop :=
  0 ≤ st.current_index ∧ st.current_index ≤ (st.pdf_files.length : Int)

instance (st : RenamerState) : Decidable (cursorInv st) := by
  unfold cursorInv; infer_instance

section Lemmas

theorem close_doc_fst (st : RenamerState) :
    (_close_current_doc st).1 = { st with doc_open := false } := by
  unfold _close_current_doc
  split
  · rfl
  · cases st with
    | mk f p i d o =>
      simp only [RenamerState.mk.injEq, true_and]
      simp_all

theorem close_doc_snd (st : RenamerState) :
    (_close_current_doc st).2 = if st.doc_open then [Event.closeDoc] else [] := by
  unfold _close_current_doc
  split <;> simp_all

theorem load_file_fst_of_le (st : RenamerState) (i : Int)
    (h : (st.pdf_files.length : Int) ≤ i) :
    (load_file st i).1 = { st with doc_open := false } := by
  unfold load_file
  dsimp only []
  rw [close_doc_fst]
  simp [h]

theorem load_file_fst_of_lt (st : RenamerState) (i : Int)
    (h : i < (st.pdf_files.length : Int)) :
    (load_file st i).1 = { st with doc_open := true } := by
  unfold load_file
  dsimp only []
  rw [close_doc_fst]
  simp [not_le.mpr h]

theorem load_file_fst_fields (st : RenamerState) (i : Int) :
    (load_file st i).1.folder = st.folder ∧
    (load_file st i).1.pdf_files = st.pdf_files ∧
    (load_file st i).1.current_index = st.current_index ∧
    (load_file st i).1.duplicate_handling_choice = st.duplicate_handling_choice := by
  rcases le_or_lt (st.pdf_files.length : Int) i with h | h
  · rw [load_file_fst_of_le st i h]; exact ⟨rfl, rfl, rfl, rfl⟩
  · rw [load_file_fst_of_lt st i h]; exact ⟨rfl, rfl, rfl, rfl⟩

theorem load_file_snd_of_le (st : RenamerState) (i : Int)
    (h : (st.pdf_files.length : Int) ≤ i) :
    (load_file st i).2 =
      (if st.doc_open then [Event.closeDoc] else []) ++ [Event.finishedSignal] := by
  unfold load_file
  dsimp only []
  rw [close_doc_snd]
  simp [h]

theorem load_file_snd_of_lt (st : RenamerState) (i : Int)
    (h : i < (st.pdf_files.length : Int)) :
    (load_file st i).2 =
      (if st.doc_open then [Event.closeDoc] else []) ++ [Event.openDoc i.toNat] := by
  unfold load_file
  dsimp only []
  rw [close_doc_snd]
  simp [not_le.mpr h]

theorem renameAttempt_not_mem_load_file (st : RenamerState) (i : Int)
    (s d : String) : Event.renameAttempt s d ∉ (load_file st i).2 := by
  rcases le_or_lt (st.pdf_files.length : Int) i with h | h
  · rw [load_file_snd_of_le st i h]
    split <;> simp
  · rw [load_file_snd_of_lt st i h]
    split <;> simp

theorem dialogShown_not_mem_load_file (st : RenamerState) (i : Int) :
    Event.dialogShown ∉ (load_file st i).2 := by
  rcases le_or_lt (st.pdf_files.length : Int) i with h | h
  · rw [load_file_snd_of_le st i h]
    split <;> simp
  · rw [load_file_snd_of_lt st i h]
    split <;> simp

theorem openDoc_mem_load_file (st : RenamerState) (i : Int)
    (h : i < (st.pdf_files.length : Int)) :
    Event.openDoc i.toNat ∈ (load_file st i).2 := by
  rw [load_file_snd_of_lt st i h]
  simp

theorem renameAttempt_not_mem_close (st : RenamerState) (s d : String) :
    Event.renameAttempt s d ∉ (_close_current_doc st).2 := by
  rw [close_doc_snd]
  split <;> simp

theorem dialogShown_not_mem_close (st : RenamerState) :
    Event.dialogShown ∉ (_close_current_doc st).2 := by
  rw [close_doc_snd]
  split <;> simp

theorem skip_current_fields (st : RenamerState) :
    (skip_current st).1.pdf_files = st.pdf_files ∧
    (skip_current st).1.current_index = st.current_index + 1 ∧
    (skip_current st).1.folder = st.folder ∧
    (skip_current st).1.duplicate_handling_choice =
      st.duplicate_handling_choice := by
  unfold skip_current
  dsimp only []
  rw [close_doc_fst]
  exact ⟨(load_file_fst_fields _ _).2.1, (load_file_fst_fields _ _).2.2.1,
    (load_file_fst_fields _ _).1, (load_file_fst_fields _ _).2.2.2⟩

theorem attemptRename_success (st : RenamerState) (fs : List String)
    (oldp newp cur : String) (pre : List Event) :
    (attemptRename st fs true oldp newp cur pre).state.pdf_files =
      st.pdf_files.set st.current_index.toNat (basename newp) ∧
    (attemptRename st fs true oldp newp cur pre).state.current_index =
      st.current_index + 1 ∧
    (attemptRename st fs true oldp newp cur pre).fs =
      newp :: fs.erase oldp ∧
    Event.renameAttempt oldp newp ∈
      (attemptRename st fs true oldp newp cur pre).events := by
  unfold attemptRename
  dsimp only []
  rw [close_doc_fst]
  refine ⟨(load_file_fst_fields _ _).2.1, (load_file_fst_fields _ _).2.2.1,
    rfl, ?_⟩
  simp [List.mem_append]

theorem attemptRename_failure (st : RenamerState) (fs : List String)
    (oldp newp cur : String) (pre : List Event) :
    (attemptRename st fs false oldp newp cur pre).state.pdf_files =
      st.pdf_files ∧
    (attemptRename st fs false oldp newp cur pre).state.current_index =
      st.current_index ∧
    (attemptRename st fs false oldp newp cur pre).fs = fs ∧
    Event.renameAttempt oldp newp ∈
      (attemptRename st fs false oldp newp cur pre).events ∧
    Event.renameError cur (basename newp) ∈
      (attemptRename st fs false oldp newp cur pre).events ∧
    (st.current_index < (st.pdf_files.length : Int) →
      Event.openDoc st.current_index.toNat ∈
        (attemptRename st fs false oldp newp cur pre).events) := by
  unfold attemptRename
  dsimp only []
  rw [close_doc_fst]
  refine ⟨(load_file_fst_fields _ _).2.1, (load_file_fst_fields _ _).2.2.1,
    rfl, ?_, ?_, ?_⟩
  · simp [List.mem_append]
  · simp [List.mem_append]
  · intro hlt
    refine List.mem_append.mpr (Or.inr ?_)
    exact openDoc_mem_load_file _ _ hlt

theorem addNumberingLoop_least (fs : List String) (folder base ext : String) :
    ∀ fuel count,
      (∃ j, count ≤ j ∧ j ≤ count + fuel ∧
        pathJoin folder (numberedName base j ext) ∉ fs) →
      ∃ K, count ≤ K ∧ pathJoin folder (numberedName base K ext) ∉ fs ∧
        (∀ m, count ≤ m → m < K →
          pathJoin folder (numberedName base m ext) ∈ fs) ∧
        addNumberingLoop fs folder base ext count fuel =
          pathJoin folder (numberedName base K ext) := by
  intro fuel
  induction fuel with
  | zero =>
    intro count h
    obtain ⟨j, hj1, hj2, hj3⟩ := h
    have hj : j = count := le_antisymm (by simpa using hj2) hj1
    subst hj
    exact ⟨j, le_refl _, hj3,
      fun m h1 h2 => absurd h2 (not_lt.mpr h1), rfl⟩
  | succ fuel ih =>
    intro count h
    by_cases hmem : pathJoin folder (numberedName base count ext) ∈ fs
    · have hstep0 : addNumberingLoop fs folder base ext count (fuel + 1) =
          if pathJoin folder (numberedName base count ext) ∈ fs then
            addNumberingLoop fs folder base ext (count + 1) fuel
          else pathJoin folder (numberedName base count ext) := rfl
      have hstep : addNumberingLoop fs folder base ext count (fuel + 1) =
          addNumberingLoop fs folder base ext (count + 1) fuel := by
        rw [hstep0, if_pos hmem]
      obtain ⟨j, hj1, hj2, hj3⟩ := h
      have hj1' : count + 1 ≤ j := by
        rcases Nat.lt_or_ge count j with hlt | hge
        · exact hlt
        · exact absurd hmem (by
            have : j = count := le_antisymm hge hj1
            rw [← this]; exact hj3)
      obtain ⟨K, hK1, hK2, hK3, hK4⟩ := ih (count + 1) ⟨j, hj1', by omega, hj3⟩
      refine ⟨K, le_trans (Nat.le_succ count) hK1, hK2, ?_, by
        rw [hstep]; exact hK4⟩
      intro m hm1 hm2
      rcases Nat.eq_or_lt_of_le hm1 with he | hlt
      · rw [← he]; exact hmem
      · exact hK3 m hlt hm2
    · have hstep0 : addNumberingLoop fs folder base ext count (fuel + 1) =
          if pathJoin folder (numberedName base count ext) ∈ fs then
            addNumberingLoop fs folder base ext (count + 1) fuel
          else pathJoin folder (numberedName base count ext) := rfl
      have hstep : addNumberingLoop fs folder base ext count (fuel + 1) =
          pathJoin folder (numberedName base count ext) := by
        rw [hstep0, if_neg hmem]
      exact ⟨count, le_refl _, hmem,
        fun m h1 h2 => absurd h2 (not_lt.mpr h1), hstep⟩

theorem dialogShown_mem_attemptRename (st : RenamerState) (fs : List String)
    (ok : Bool) (oldp newp cur : String) (pre : List Event)
    (h : Event.dialogShown ∈ (attemptRename st fs ok oldp newp cur pre).events) :
    Event.dialogShown ∈ pre := by
  unfold attemptRename at h
  dsimp only [] at h
  split at h
  · rcases List.mem_append.mp h with h | h
    · rcases List.mem_append.mp h with h | h
      · rcases List.mem_append.mp h with h | h
        · exact h
        · exact absurd h (dialogShown_not_mem_close st)
      · simp at h
    · exact absurd h (dialogShown_not_mem_load_file _ _)
  · rcases List.mem_append.mp h with h | h
    · rcases List.mem_append.mp h with h | h
      · rcases List.mem_append.mp h with h | h
        · rcases List.mem_append.mp h with h | h
          · exact h
          · exact absurd h (dialogShown_not_mem_close st)
        · simp at h
      · simp at h
    · exact absurd h (dialogShown_not_mem_load_file _ _)

theorem dialogShown_not_mem_skip (st : RenamerState) :
    Event.dialogShown ∉ (skip_current st).2 := by
  unfold skip_current
  dsimp only []
  intro h
  rcases List.mem_append.mp h with h | h
  · exact dialogShown_not_mem_close st h
  · exact dialogShown_not_mem_load_file _ _ h

theorem attemptRename_dup_choice (st : RenamerState) (fs : List String)
    (ok : Bool) (oldp newp cur : String) (pre : List Event) :
    (attemptRename st fs ok oldp newp cur pre).state.duplicate_handling_choice =
      st.duplicate_handling_choice := by
  unfold attemptRename
  dsimp only []
  split <;> rw [close_doc_fst] <;> exact (load_file_fst_fields _ _).2.2.2

theorem bookkeeping_dup_choice (st : RenamerState) (inp : RenameInput) :
    (afterChoiceBookkeeping st inp).duplicate_handling_choice =
      st.duplicate_handling_choice ∨
    ∃ b, inp.dialog_action = some b ∧ inp.dialog_remember = true ∧
      (afterChoiceBookkeeping st inp).duplicate_handling_choice =
        DupChoice.always b := by
  rcases hd : st.duplicate_handling_choice with _ | a
  · rcases ha : inp.dialog_action with _ | b
    · left
      simp [afterChoiceBookkeeping, hd, ha]
    · cases hr : inp.dialog_remember
      · left
        simp [afterChoiceBookkeeping, hd, ha, hr]
      · right
        exact ⟨b, rfl, rfl, by simp [afterChoiceBookkeeping, hd, ha, hr]⟩
  · left
    simp [afterChoiceBookkeeping, hd]

theorem rename_current_dup_choice (st : RenamerState) (inp : RenameInput) :
    (rename_current st inp).state.duplicate_handling_choice =
      st.duplicate_handling_choice ∨
    (rename_current st inp).state.duplicate_handling_choice =
      (afterChoiceBookkeeping st inp).duplicate_handling_choice := by
  unfold rename_current
  by_cases hval : validIndex st
  · rw [if_pos hval]
    dsimp only []
    by_cases hsame : inp.normcase (newPath st inp.new_name_entry) =
        inp.normcase (oldPath st)
    · rw [if_pos hsame]
      rw [close_doc_fst]
      exact Or.inl (load_file_fst_fields _ _).2.2.2
    · rw [if_neg hsame]
      by_cases hc : newPath st inp.new_name_entry ∈ inp.fs
      · rw [if_pos hc]
        rcases hra : resolvedAction st inp with _ | a
        · exact Or.inr rfl
        · cases a
          · exact Or.inr rfl
          · exact Or.inr (attemptRename_dup_choice _ _ _ _ _ _ _)
          · exact Or.inr (skip_current_fields _).2.2.2
      · rw [if_neg hc]
        exact Or.inl (attemptRename_dup_choice _ _ _ _ _ _ _)
  · rw [if_neg hval]
    exact Or.inl rfl

theorem bookkeeping_fields (st : RenamerState) (inp : RenameInput) :
    (afterChoiceBookkeeping st inp).pdf_files = st.pdf_files ∧
    (afterChoiceBookkeeping st inp).current_index = st.current_index ∧
    (afterChoiceBookkeeping st inp).folder = st.folder ∧
    (afterChoiceBookkeeping st inp).doc_open = st.doc_open := by
  unfold afterChoiceBookkeeping
  split <;> exact ⟨rfl, rfl, rfl, rfl⟩

theorem ddv_append (b : Bool) (l1 l2 : List Event) :
    docDisciplineViolation b (l1 ++ l2) =
      (docDisciplineViolation b l1 ||
        docDisciplineViolation (runDoc b l1) l2) := by
  induction l1 generalizing b with
  | nil => simp [docDisciplineViolation, runDoc]
  | cons e r ih =>
    cases e <;> simp [docDisciplineViolation, runDoc, ih, Bool.or_assoc]

theorem runDoc_append (b : Bool) (l1 l2 : List Event) :
    runDoc b (l1 ++ l2) = runDoc (runDoc b l1) l2 := by
  induction l1 generalizing b with
  | nil => simp [runDoc]
  | cons e r ih => cases e <;> simp [runDoc, ih]

theorem ddv_close (st : RenamerState) (b : Bool) :
    docDisciplineViolation b (_close_current_doc st).2 = false := by
  rw [close_doc_snd]
  split <;> simp [docDisciplineViolation]

theorem runDoc_close (st : RenamerState) :
    runDoc st.doc_open (_close_current_doc st).2 = false := by
  rw [close_doc_snd]
  cases h : st.doc_open <;> simp [h, runDoc]

theorem ddv_load (st : RenamerState) (i : Int) :
    docDisciplineViolation st.doc_open (load_file st i).2 = false := by
  rcases le_or_lt (st.pdf_files.length : Int) i with h | h
  · rw [load_file_snd_of_le st i h]
    cases hb : st.doc_open <;> simp [hb, docDisciplineViolation]
  · rw [load_file_snd_of_lt st i h]
    cases hb : st.doc_open <;> simp [hb, docDisciplineViolation]

theorem ddv_load_closed (st : RenamerState) (i : Int)
    (h : st.doc_open = false) :
    docDisciplineViolation false (load_file st i).2 = false := by
  have h2 := ddv_load st i
  rwa [h] at h2

theorem ddv_choiceEvents (st : RenamerState) (b : Bool) :
    docDisciplineViolation b (choiceEvents st) = false := by
  unfold choiceEvents
  split <;> simp [docDisciplineViolation]

theorem runDoc_choiceEvents (st : RenamerState) (b : Bool) :
    runDoc b (choiceEvents st) = b := by
  unfold choiceEvents
  split <;> simp [runDoc]

theorem skip_current_ddv (st : RenamerState) :
    docDisciplineViolation st.doc_open (skip_current st).2 = false := by
  unfold skip_current
  dsimp only []
  rw [close_doc_fst, ddv_append, ddv_close, runDoc_close]
  simp only [Bool.false_or]
  exact ddv_load_closed _ _ rfl

theorem attemptRename_ddv (st : RenamerState) (fs : List String) (ok : Bool)
    (oldp newp cur : String) (pre : List Event)
    (hpre : docDisciplineViolation st.doc_open pre = false)
    (hrun : runDoc st.doc_open pre = st.doc_open) :
    docDisciplineViolation st.doc_open
      (attemptRename st fs ok oldp newp cur pre).events = false := by
  unfold attemptRename
  dsimp only []
  rw [close_doc_fst]
  split
  · simp only [ddv_append, runDoc_append, hpre, hrun, ddv_close, runDoc_close,
      docDisciplineViolation, runDoc, Bool.false_or, Bool.or_false]
    exact ddv_load_closed _ _ rfl
  · simp only [ddv_append, runDoc_append, hpre, hrun, ddv_close, runDoc_close,
      docDisciplineViolation, runDoc, Bool.false_or, Bool.or_false]
    exact ddv_load_closed _ _ rfl

theorem attemptRename_cursorInv (st : RenamerState) (fs : List String)
    (ok : Bool) (oldp newp cur : String) (pre : List Event)
    (h0 : 0 ≤ st.current_index)
    (hlt : st.current_index < (st.pdf_files.length : Int)) :
    cursorInv (attemptRename st fs ok oldp newp cur pre).state := by
  unfold attemptRename
  dsimp only []
  rw [close_doc_fst]
  split
  · constructor
    · rw [(load_file_fst_fields _ _).2.2.1]
      show 0 ≤ st.current_index + 1
      omega
    · rw [(load_file_fst_fields _ _).2.2.1, (load_file_fst_fields _ _).2.1]
      show st.current_index + 1 ≤
        ((st.pdf_files.set st.current_index.toNat (basename newp)).length : Int)
      rw [List.length_set]
      omega
  · constructor
    · rw [(load_file_fst_fields _ _).2.2.1]
      exact h0
    · rw [(load_file_fst_fields _ _).2.2.1, (load_file_fst_fields _ _).2.1]
      show st.current_index ≤ (st.pdf_files.length : Int)
      omega

theorem rename_current_cursorInv (st : RenamerState) (inp : RenameInput)
    (h : cursorInv st) : cursorInv (rename_current st inp).state := by
  unfold rename_current
  by_cases hval : validIndex st
  case neg =>
    rw [if_neg hval]
    exact h
  have h0 := hval.2.1
  have hlt := hval.2.2
  rw [if_pos hval]
  dsimp only []
  by_cases hsame : inp.normcase (newPath st inp.new_name_entry) =
      inp.normcase (oldPath st)
  · rw [if_pos hsame]
    rw [close_doc_fst]
    constructor
    · rw [(load_file_fst_fields _ _).2.2.1]
      show 0 ≤ st.current_index + 1
      omega
    · rw [(load_file_fst_fields _ _).2.2.1, (load_file_fst_fields _ _).2.1]
      show st.current_index + 1 ≤ (st.pdf_files.length : Int)
      omega
  · rw [if_neg hsame]
    by_cases hc : newPath st inp.new_name_entry ∈ inp.fs
    · rw [if_pos hc]
      rcases hra : resolvedAction st inp with _ | a
      · constructor
        · rw [(bookkeeping_fields st inp).2.1]
          exact h0
        · rw [(bookkeeping_fields st inp).2.1, (bookkeeping_fields st inp).1]
          omega
      · cases a
        · constructor
          · rw [(bookkeeping_fields st inp).2.1]
            exact h0
          · rw [(bookkeeping_fields st inp).2.1, (bookkeeping_fields st inp).1]
            omega
        · refine attemptRename_cursorInv _ _ _ _ _ _ _ ?_ ?_
          · rw [(bookkeeping_fields st inp).2.1]
            exact h0
          · rw [(bookkeeping_fields st inp).2.1, (bookkeeping_fields st inp).1]
            exact hlt
        · constructor
          · rw [(skip_current_fields _).2.1, (bookkeeping_fields st inp).2.1]
            omega
          · rw [(skip_current_fields _).2.1, (skip_current_fields _).1,
              (bookkeeping_fields st inp).2.1, (bookkeeping_fields st inp).1]
            omega
    · rw [if_neg hc]
      exact attemptRename_cursorInv _ _ _ _ _ _ _ h0 hlt

theorem prev_file_cursorInv (st : RenamerState) (h : cursorInv st) :
    cursorInv (prev_file st).1 := by
  unfold prev_file
  split
  next hpos =>
    constructor
    · rw [(load_file_fst_fields _ _).2.2.1]
      show 0 ≤ st.current_index - 1
      omega
    · rw [(load_file_fst_fields _ _).2.2.1, (load_file_fst_fields _ _).2.1]
      show st.current_index - 1 ≤ (st.pdf_files.length : Int)
      have := h.2
      omega
  next => exact h

theorem next_file_cursorInv (st : RenamerState) (h : cursorInv st) :
    cursorInv (next_file st).1 := by
  unfold next_file
  split
  next hpos =>
    constructor
    · rw [(load_file_fst_fields _ _).2.2.1]
      show 0 ≤ st.current_index + 1
      have := h.1
      omega
    · rw [(load_file_fst_fields _ _).2.2.1, (load_file_fst_fields _ _).2.1]
      show st.current_index + 1 ≤ (st.pdf_files.length : Int)
      omega
  next => exact h

theorem select_core_cursorInv (scan : String → List String)
    (st : RenamerState) (attempts : List FolderAttempt) (h : cursorInv st) :
    cursorInv (select_core scan st attempts).1 := by
  induction attempts with
  | nil => exact h
  | cons att rest ih =>
    unfold select_core
    cases hsel : att.selection with
    | none => exact h
    | some f =>
      dsimp only []
      split
      · exact h
      · split
        · exact ⟨le_refl 0, Int.natCast_nonneg _⟩
        · exact ih

theorem change_folder_cursorInv (scan : String → List String)
    (st : RenamerState) (attempts : List FolderAttempt) (h : cursorInv st) :
    cursorInv (change_folder scan st attempts).1 := by
  unfold change_folder
  dsimp only []
  have h2 := select_core_cursorInv scan st attempts h
  split
  · constructor
    · rw [(load_file_fst_fields _ _).2.2.1]
      exact h2.1
    · rw [(load_file_fst_fields _ _).2.2.1, (load_file_fst_fields _ _).2.1]
      exact h2.2
  · exact h2

end Lemmas

section Theorems

/-- **C10**: when `pdf_files` is empty or `current_index` is out of range, the
guard at the top of `rename_current` fires: the whole object state (FileList,
Cursor, DuplicateChoice, document handle) and the filesystem are unchanged,
and the only observable effect is an informational message. -/
theorem rename_invalid_index_noop (st : RenamerState) (inp : RenameInput)
    (h : ¬ validIndex st) :
    (rename_current st inp).state = st ∧
    (rename_current st inp).fs = inp.fs ∧
    (rename_current st inp).events = [Event.infoShown] := by
  unfold rename_current
  rw [if_neg h]
  exact ⟨rfl, rfl, rfl⟩

/-- Witness for C10 at a concrete invalid state (empty list). -/
theorem rename_invalid_index_noop_witness :
    ¬ validIndex ⟨"/d", [], 0, DupChoice.ask, false⟩ ∧
    (rename_current ⟨"/d", [], 0, DupChoice.ask, false⟩
        ⟨"x", [], none, false, true, id⟩).state =
      ⟨"/d", [], 0, DupChoice.ask, false⟩ ∧
    (rename_current ⟨"/d", [], 0, DupChoice.ask, false⟩
        ⟨"x", [], none, false, true, id⟩).fs = [] ∧
    (rename_current ⟨"/d", [], 0, DupChoice.ask, false⟩
        ⟨"x", [], none, false, true, id⟩).events = [Event.infoShown] := by
  refine ⟨by decide, ?_⟩
  have h := rename_invalid_index_noop ⟨"/d", [], 0, DupChoice.ask, false⟩
    ⟨"x", [], none, false, true, id⟩ (by decide)
  exact h

/-- **C4**: when the proposed path and the current file's path are equal
after `os.path.normcase ∘ os.path.abspath`, `rename_current` performs no
filesystem mutation (no `os.rename` call is even issued and the filesystem
value is returned untouched), leaves FileList unchanged, and advances the
Cursor by exactly 1. -/
theorem rename_noop_case_advances (st : RenamerState) (inp : RenameInput)
    (hvalid : validIndex st)
    (hsame : inp.normcase (newPath st inp.new_name_entry) =
      inp.normcase (oldPath st)) :
    (rename_current st inp).fs = inp.fs ∧
    (rename_current st inp).state.pdf_files = st.pdf_files ∧
    (rename_current st inp).state.current_index = st.current_index + 1 ∧
    ∀ s d, Event.renameAttempt s d ∉ (rename_current st inp).events := by
  unfold rename_current
  rw [if_pos hvalid, if_pos hsame]
  dsimp only []
  rw [close_doc_fst]
  refine ⟨rfl, (load_file_fst_fields _ _).2.1,
    (load_file_fst_fields _ _).2.2.1, ?_⟩
  intro s d hmem
  rcases List.mem_append.mp hmem with h | h
  · exact renameAttempt_not_mem_close st s d h
  · exact renameAttempt_not_mem_load_file _ _ s d h

/-- Witness for C4: renaming `a.pdf` to `"  a  "` (which strips to `a`)
resolves to the file's own path; the Cursor advances, nothing else moves. -/
theorem rename_noop_case_advances_witness :
    validIndex ⟨"/d", ["a.pdf"], 0, DupChoice.ask, true⟩ ∧
    (⟨"  a  ", ["/d/a.pdf"], none, false, true, id⟩ :
        RenameInput).normcase
        (newPath ⟨"/d", ["a.pdf"], 0, DupChoice.ask, true⟩ "  a  ") =
      (⟨"  a  ", ["/d/a.pdf"], none, false, true, id⟩ :
        RenameInput).normcase
        (oldPath ⟨"/d", ["a.pdf"], 0, DupChoice.ask, true⟩) ∧
    ((rename_current ⟨"/d", ["a.pdf"], 0, DupChoice.ask, true⟩
        ⟨"  a  ", ["/d/a.pdf"], none, false, true, id⟩).fs = ["/d/a.pdf"] ∧
      (rename_current ⟨"/d", ["a.pdf"], 0, DupChoice.ask, true⟩
        ⟨"  a  ", ["/d/a.pdf"], none, false, true, id⟩).state.pdf_files =
          ["a.pdf"] ∧
      (rename_current ⟨"/d", ["a.pdf"], 0, DupChoice.ask, true⟩
        ⟨"  a  ", ["/d/a.pdf"], none, false, true, id⟩).state.current_index =
          0 + 1 ∧
      ∀ s d, Event.renameAttempt s d ∉
        (rename_current ⟨"/d", ["a.pdf"], 0, DupChoice.ask, true⟩
          ⟨"  a  ", ["/d/a.pdf"], none, false, true, id⟩).events) := by
  refine ⟨by decide, by decide, ?_⟩
  exact rename_noop_case_advances ⟨"/d", ["a.pdf"], 0, DupChoice.ask, true⟩
    ⟨"  a  ", ["/d/a.pdf"], none, false, true, id⟩ (by decide) (by decide)

/-- **C1**: on a successful rename (valid index, an actual name change, the
`os.rename` call succeeding, and any collision resolved by "add numbering"),
the FileList entry at the pre-operation Cursor is replaced by the basename of
the path passed to `os.rename`, the list length is unchanged, and the Cursor
advances by exactly 1. -/
theorem rename_success_replaces_entry_and_advances (st : RenamerState)
    (inp : RenameInput) (hvalid : validIndex st)
    (hdiff : inp.normcase (newPath st inp.new_name_entry) ≠
      inp.normcase (oldPath st))
    (hok : inp.rename_ok = true)
    (hdup : newPath st inp.new_name_entry ∈ inp.fs →
      resolvedAction st inp = some DupAction.add_numbering) :
    ∃ p, Event.renameAttempt (oldPath st) p ∈ (rename_current st inp).events ∧
      (rename_current st inp).state.pdf_files =
        st.pdf_files.set st.current_index.toNat (basename p) ∧
      (rename_current st inp).state.pdf_files.length =
        st.pdf_files.length ∧
      (rename_current st inp).state.current_index = st.current_index + 1 := by
  unfold rename_current
  rw [if_pos hvalid, if_neg hdiff]
  dsimp only []
  by_cases hc : newPath st inp.new_name_entry ∈ inp.fs
  · rw [if_pos hc, hdup hc, hok]
    dsimp only []
    obtain ⟨h1, h2, h3, h4⟩ := attemptRename_success
      (afterChoiceBookkeeping st inp) inp.fs (oldPath st)
      (addNumbering inp.fs st.folder (strip inp.new_name_entry)
        (splitextExt (currentFile st)))
      (currentFile st) (choiceEvents st)
    refine ⟨_, h4, ?_, ?_, ?_⟩
    · rw [h1, (bookkeeping_fields st inp).1, (bookkeeping_fields st inp).2.1]
    · rw [h1, (bookkeeping_fields st inp).1]
      simp
    · rw [h2, (bookkeeping_fields st inp).2.1]
  · rw [if_neg hc, hok]
    obtain ⟨h1, h2, h3, h4⟩ := attemptRename_success st inp.fs (oldPath st)
      (newPath st inp.new_name_entry) (currentFile st) []
    refine ⟨_, h4, h1, ?_, h2⟩
    rw [h1]
    simp

/-- Witness for C1: the spec scenario `[a.pdf, b.pdf]`, renaming `a.pdf` to
`x`: FileList becomes `[x.pdf, b.pdf]`, length 2, Cursor 1. -/
theorem rename_success_replaces_entry_and_advances_witness :
    validIndex ⟨"/d", ["a.pdf", "b.pdf"], 0, DupChoice.ask, true⟩ ∧
    (∃ p, Event.renameAttempt
        (oldPath ⟨"/d", ["a.pdf", "b.pdf"], 0, DupChoice.ask, true⟩) p ∈
        (rename_current ⟨"/d", ["a.pdf", "b.pdf"], 0, DupChoice.ask, true⟩
          ⟨"x", ["/d/a.pdf", "/d/b.pdf"], none, false, true, id⟩).events ∧
      (rename_current ⟨"/d", ["a.pdf", "b.pdf"], 0, DupChoice.ask, true⟩
        ⟨"x", ["/d/a.pdf", "/d/b.pdf"], none, false, true, id⟩).state.pdf_files =
        (["a.pdf", "b.pdf"] : List String).set (Int.toNat 0) (basename p) ∧
      (rename_current ⟨"/d", ["a.pdf", "b.pdf"], 0, DupChoice.ask, true⟩
        ⟨"x", ["/d/a.pdf", "/d/b.pdf"], none, false, true,
          id⟩).state.pdf_files.length = (["a.pdf", "b.pdf"] : List String).length ∧
      (rename_current ⟨"/d", ["a.pdf", "b.pdf"], 0, DupChoice.ask, true⟩
        ⟨"x", ["/d/a.pdf", "/d/b.pdf"], none, false, true,
          id⟩).state.current_index = 0 + 1) ∧
    (rename_current ⟨"/d", ["a.pdf", "b.pdf"], 0, DupChoice.ask, true⟩
      ⟨"x", ["/d/a.pdf", "/d/b.pdf"], none, false, true, id⟩).state.pdf_files =
      ["x.pdf", "b.pdf"] := by
  refine ⟨by decide, ?_, by decide⟩
  exact rename_success_replaces_entry_and_advances
    ⟨"/d", ["a.pdf", "b.pdf"], 0, DupChoice.ask, true⟩
    ⟨"x", ["/d/a.pdf", "/d/b.pdf"], none, false, true, id⟩
    (by decide) (by decide) rfl (by decide)

/-- **C2**: when the `os.rename` call raises, the error is reported together
with the source file name and the destination basename, the Cursor does not
advance, the FileList entry at the Cursor still holds the original name (the
whole list is unchanged), the filesystem is unchanged, and the same file is
re-presented (re-opened at the same index). -/
theorem rename_failure_preserves_state (st : RenamerState)
    (inp : RenameInput) (hvalid : validIndex st)
    (hdiff : inp.normcase (newPath st inp.new_name_entry) ≠
      inp.normcase (oldPath st))
    (hfail : inp.rename_ok = false)
    (hdup : newPath st inp.new_name_entry ∈ inp.fs →
      resolvedAction st inp = some DupAction.add_numbering) :
    (rename_current st inp).state.pdf_files = st.pdf_files ∧
    (rename_current st inp).state.current_index = st.current_index ∧
    (rename_current st inp).fs = inp.fs ∧
    (∃ p, Event.renameAttempt (oldPath st) p ∈ (rename_current st inp).events ∧
      Event.renameError (currentFile st) (basename p) ∈
        (rename_current st inp).events) ∧
    Event.openDoc st.current_index.toNat ∈ (rename_current st inp).events := by
  unfold rename_current
  rw [if_pos hvalid, if_neg hdiff]
  dsimp only []
  by_cases hc : newPath st inp.new_name_entry ∈ inp.fs
  · rw [if_pos hc, hdup hc, hfail]
    dsimp only []
    obtain ⟨h1, h2, h3, h4, h5, h6⟩ := attemptRename_failure
      (afterChoiceBookkeeping st inp) inp.fs (oldPath st)
      (addNumbering inp.fs st.folder (strip inp.new_name_entry)
        (splitextExt (currentFile st)))
      (currentFile st) (choiceEvents st)
    refine ⟨?_, ?_, h3, ⟨_, h4, h5⟩, ?_⟩
    · rw [h1, (bookkeeping_fields st inp).1]
    · rw [h2, (bookkeeping_fields st inp).2.1]
    · have := h6 (by
        rw [(bookkeeping_fields st inp).2.1, (bookkeeping_fields st inp).1]
        exact hvalid.2.2)
      rwa [(bookkeeping_fields st inp).2.1] at this
  · rw [if_neg hc, hfail]
    obtain ⟨h1, h2, h3, h4, h5, h6⟩ := attemptRename_failure st inp.fs
      (oldPath st) (newPath st inp.new_name_entry) (currentFile st) []
    exact ⟨h1, h2, h3, ⟨_, h4, h5⟩, h6 hvalid.2.2⟩

/-- Witness for C2: a failed rename of `a.pdf` to `x` leaves the list,
index and filesystem unchanged, reports both names, and re-opens file 0. -/
theorem rename_failure_preserves_state_witness :
    validIndex ⟨"/d", ["a.pdf", "b.pdf"], 0, DupChoice.ask, true⟩ ∧
    ((rename_current ⟨"/d", ["a.pdf", "b.pdf"], 0, DupChoice.ask, true⟩
        ⟨"x", ["/d/a.pdf", "/d/b.pdf"], none, false, false, id⟩).state.pdf_files =
        ["a.pdf", "b.pdf"] ∧
      (rename_current ⟨"/d", ["a.pdf", "b.pdf"], 0, DupChoice.ask, true⟩
        ⟨"x", ["/d/a.pdf", "/d/b.pdf"], none, false, false,
          id⟩).state.current_index = 0 ∧
      (rename_current ⟨"/d", ["a.pdf", "b.pdf"], 0, DupChoice.ask, true⟩
        ⟨"x", ["/d/a.pdf", "/d/b.pdf"], none, false, false, id⟩).fs =
        ["/d/a.pdf", "/d/b.pdf"] ∧
      (∃ p, Event.renameAttempt
          (oldPath ⟨"/d", ["a.pdf", "b.pdf"], 0, DupChoice.ask, true⟩) p ∈
          (rename_current ⟨"/d", ["a.pdf", "b.pdf"], 0, DupChoice.ask, true⟩
            ⟨"x", ["/d/a.pdf", "/d/b.pdf"], none, false, false, id⟩).events ∧
        Event.renameError
          (currentFile ⟨"/d", ["a.pdf", "b.pdf"], 0, DupChoice.ask, true⟩)
          (basename p) ∈
          (rename_current ⟨"/d", ["a.pdf", "b.pdf"], 0, DupChoice.ask, true⟩
            ⟨"x", ["/d/a.pdf", "/d/b.pdf"], none, false, false, id⟩).events) ∧
      Event.openDoc (Int.toNat 0) ∈
        (rename_current ⟨"/d", ["a.pdf", "b.pdf"], 0, DupChoice.ask, true⟩
          ⟨"x", ["/d/a.pdf", "/d/b.pdf"], none, false, false, id⟩).events) := by
  refine ⟨by decide, ?_⟩
  exact rename_failure_preserves_state
    ⟨"/d", ["a.pdf", "b.pdf"], 0, DupChoice.ask, true⟩
    ⟨"x", ["/d/a.pdf", "/d/b.pdf"], none, false, false, id⟩
    (by decide) (by decide) rfl (by decide)

/-- **C3**: provided some numbered candidate among the first `|fs| + 1` is
free (true of every real directory listing, the candidates being pairwise
distinct), the add-numbering algorithm returns the path built from the
smallest counter `K ≥ 1` whose candidate does not exist: every smaller
counter's candidate is in `fs` and the result is the candidate at `K`. -/
theorem addNumbering_least_free_counter (fs : List String)
    (folder base ext : String)
    (hfree : ∃ j, 1 ≤ j ∧ j ≤ fs.length + 1 ∧
      pathJoin folder (numberedName base j ext) ∉ fs) :
    ∃ K, 1 ≤ K ∧ pathJoin folder (numberedName base K ext) ∉ fs ∧
      (∀ m, 1 ≤ m → m < K →
        pathJoin folder (numberedName base m ext) ∈ fs) ∧
      addNumbering fs folder base ext =
        pathJoin folder (numberedName base K ext) := by
  obtain ⟨j, hj1, hj2, hj3⟩ := hfree
  exact addNumberingLoop_least fs folder base ext (fs.length + 1) 1
    ⟨j, hj1, by omega, hj3⟩

/-- Witness for C3: with `name(1).pdf` and `name(2).pdf` present, proposing
`name` with extension `.pdf` yields `name(3).pdf`. -/
theorem addNumbering_least_free_counter_witness :
    (1 ≤ 3 ∧ 3 ≤ (["/d/name(1).pdf", "/d/name(2).pdf"] : List String).length + 1 ∧
      pathJoin "/d" (numberedName "name" 3 ".pdf") ∉
        (["/d/name(1).pdf", "/d/name(2).pdf"] : List String)) ∧
    (∃ K, 1 ≤ K ∧
      pathJoin "/d" (numberedName "name" K ".pdf") ∉
        (["/d/name(1).pdf", "/d/name(2).pdf"] : List String) ∧
      (∀ m, 1 ≤ m → m < K →
        pathJoin "/d" (numberedName "name" m ".pdf") ∈
          (["/d/name(1).pdf", "/d/name(2).pdf"] : List String)) ∧
      addNumbering ["/d/name(1).pdf", "/d/name(2).pdf"] "/d" "name" ".pdf" =
        pathJoin "/d" (numberedName "name" K ".pdf")) ∧
    addNumbering ["/d/name(1).pdf", "/d/name(2).pdf"] "/d" "name" ".pdf" =
      "/d/name(3).pdf" := by
  refine ⟨⟨by decide, by decide, by decide⟩, ?_, by decide⟩
  exact addNumbering_least_free_counter ["/d/name(1).pdf", "/d/name(2).pdf"]
    "/d" "name" ".pdf" ⟨3, by decide, by decide, by decide⟩

/-- **C7**: a collision resolved as "rename again" (retry) or dismissed
without a choice (cancelled) makes no filesystem change, leaves Cursor and
FileList unchanged, keeps the document handle as it was, and never issues an
`os.rename` call. -/
theorem collision_retry_or_cancel_noop (st : RenamerState)
    (inp : RenameInput) (hvalid : validIndex st)
    (hdiff : inp.normcase (newPath st inp.new_name_entry) ≠
      inp.normcase (oldPath st))
    (hcol : newPath st inp.new_name_entry ∈ inp.fs)
    (hact : resolvedAction st inp = some DupAction.rename_again ∨
      resolvedAction st inp = none) :
    (rename_current st inp).fs = inp.fs ∧
    (rename_current st inp).state.current_index = st.current_index ∧
    (rename_current st inp).state.pdf_files = st.pdf_files ∧
    (rename_current st inp).state.doc_open = st.doc_open ∧
    ∀ s d, Event.renameAttempt s d ∉ (rename_current st inp).events := by
  unfold rename_current
  rw [if_pos hvalid, if_neg hdiff]
  dsimp only []
  rw [if_pos hcol]
  have hfin : ∀ s d, Event.renameAttempt s d ∉ choiceEvents st := by
    intro s d hmem
    unfold choiceEvents at hmem
    split at hmem <;> simp_all
  rcases hact with h | h <;> rw [h] <;> dsimp only [] <;>
    exact ⟨rfl, (bookkeeping_fields st inp).2.1, (bookkeeping_fields st inp).1,
      (bookkeeping_fields st inp).2.2.2, hfin⟩

/-- Witness for C7 at a concrete collision dismissed without a choice. -/
theorem collision_retry_or_cancel_noop_witness :
    validIndex ⟨"/d", ["a.pdf", "x.pdf"], 0, DupChoice.ask, true⟩ ∧
    newPath ⟨"/d", ["a.pdf", "x.pdf"], 0, DupChoice.ask, true⟩ "x" ∈
      (["/d/a.pdf", "/d/x.pdf"] : List String) ∧
    ((rename_current ⟨"/d", ["a.pdf", "x.pdf"], 0, DupChoice.ask, true⟩
        ⟨"x", ["/d/a.pdf", "/d/x.pdf"], none, false, true, id⟩).fs =
        ["/d/a.pdf", "/d/x.pdf"] ∧
      (rename_current ⟨"/d", ["a.pdf", "x.pdf"], 0, DupChoice.ask, true⟩
        ⟨"x", ["/d/a.pdf", "/d/x.pdf"], none, false, true,
          id⟩).state.current_index = 0 ∧
      (rename_current ⟨"/d", ["a.pdf", "x.pdf"], 0, DupChoice.ask, true⟩
        ⟨"x", ["/d/a.pdf", "/d/x.pdf"], none, false, true,
          id⟩).state.pdf_files = ["a.pdf", "x.pdf"] ∧
      (rename_current ⟨"/d", ["a.pdf", "x.pdf"], 0, DupChoice.ask, true⟩
        ⟨"x", ["/d/a.pdf", "/d/x.pdf"], none, false, true,
          id⟩).state.doc_open = true ∧
      ∀ s d, Event.renameAttempt s d ∉
        (rename_current ⟨"/d", ["a.pdf", "x.pdf"], 0, DupChoice.ask, true⟩
          ⟨"x", ["/d/a.pdf", "/d/x.pdf"], none, false, true, id⟩).events) := by
  refine ⟨by decide, by decide, ?_⟩
  exact collision_retry_or_cancel_noop
    ⟨"/d", ["a.pdf", "x.pdf"], 0, DupChoice.ask, true⟩
    ⟨"x", ["/d/a.pdf", "/d/x.pdf"], none, false, true, id⟩
    (by decide) (by decide) (by decide) (Or.inr (by decide))

/-- **C5**: a remembered duplicate choice is applied on every collision
without showing the dialog and is never altered by the step; and the stored
choice is never a dismissal: after any step it is either unchanged or equal
to a concrete action the dialog returned (with the remember flag set), so a
dialog dismissed without a choice (`None`) is never persisted. -/
theorem remembered_choice_policy (st : RenamerState) (inp : RenameInput) :
    (∀ a, st.duplicate_handling_choice = DupChoice.always a →
      Event.dialogShown ∉ (rename_current st inp).events ∧
      resolvedAction st inp = some a ∧
      (rename_current st inp).state.duplicate_handling_choice =
        st.duplicate_handling_choice) ∧
    (inp.dialog_action = none →
      (rename_current st inp).state.duplicate_handling_choice =
        st.duplicate_handling_choice) ∧
    ((rename_current st inp).state.duplicate_handling_choice =
        st.duplicate_handling_choice ∨
      ∃ b, inp.dialog_action = some b ∧ inp.dialog_remember = true ∧
        (rename_current st inp).state.duplicate_handling_choice =
          DupChoice.always b) := by
  refine ⟨?_, ?_, ?_⟩
  · intro a ha
    refine ⟨?_, by simp [resolvedAction, ha], ?_⟩
    · intro hmem
      unfold rename_current at hmem
      by_cases hval : validIndex st
      case neg =>
        rw [if_neg hval] at hmem
        simp at hmem
      rw [if_pos hval] at hmem
      dsimp only [] at hmem
      by_cases hsame : inp.normcase (newPath st inp.new_name_entry) =
          inp.normcase (oldPath st)
      · rw [if_pos hsame] at hmem
        rcases List.mem_append.mp hmem with h | h
        · exact dialogShown_not_mem_close st h
        · exact dialogShown_not_mem_load_file _ _ h
      · rw [if_neg hsame] at hmem
        by_cases hc : newPath st inp.new_name_entry ∈ inp.fs
        · rw [if_pos hc,
            show resolvedAction st inp = some a from by
              simp [resolvedAction, ha]] at hmem
          have hce : choiceEvents st = [] := by simp [choiceEvents, ha]
          cases a
          · dsimp only [] at hmem
            rw [hce] at hmem
            simp at hmem
          · dsimp only [] at hmem
            have h2 := dialogShown_mem_attemptRename _ _ _ _ _ _ _ hmem
            rw [hce] at h2
            simp at h2
          · dsimp only [] at hmem
            rcases List.mem_append.mp hmem with h | h
            · rw [hce] at h
              simp at h
            · exact dialogShown_not_mem_skip _ h
        · rw [if_neg hc] at hmem
          have h2 := dialogShown_mem_attemptRename _ _ _ _ _ _ _ hmem
          simp at h2
    · rcases rename_current_dup_choice st inp with h | h
      · exact h
      · rw [h]
        simp [afterChoiceBookkeeping, ha]
  · intro hnone
    rcases rename_current_dup_choice st inp with h | h
    · exact h
    · rcases bookkeeping_dup_choice st inp with h2 | ⟨b, hb1, _, _⟩
      · exact h.trans h2
      · rw [hnone] at hb1
        cases hb1
  · rcases rename_current_dup_choice st inp with h | h
    · exact Or.inl h
    · rcases bookkeeping_dup_choice st inp with h2 | ⟨b, hb1, hb2, hb3⟩
      · exact Or.inl (h.trans h2)
      · exact Or.inr ⟨b, hb1, hb2, h.trans hb3⟩

/-- Witness for C5: with `always skip` remembered, a collision is handled
without showing the dialog and the stored choice survives unchanged. -/
theorem remembered_choice_policy_witness :
    Event.dialogShown ∉
      (rename_current
        ⟨"/d", ["a.pdf", "x.pdf"], 0, DupChoice.always DupAction.skip, true⟩
        ⟨"x", ["/d/a.pdf", "/d/x.pdf"], none, false, true, id⟩).events ∧
    resolvedAction
        ⟨"/d", ["a.pdf", "x.pdf"], 0, DupChoice.always DupAction.skip, true⟩
        ⟨"x", ["/d/a.pdf", "/d/x.pdf"], none, false, true, id⟩ =
      some DupAction.skip ∧
    (rename_current
        ⟨"/d", ["a.pdf", "x.pdf"], 0, DupChoice.always DupAction.skip, true⟩
        ⟨"x", ["/d/a.pdf", "/d/x.pdf"], none, false, true,
          id⟩).state.duplicate_handling_choice =
      DupChoice.always DupAction.skip := by
  have h := (remembered_choice_policy
    ⟨"/d", ["a.pdf", "x.pdf"], 0, DupChoice.always DupAction.skip, true⟩
    ⟨"x", ["/d/a.pdf", "/d/x.pdf"], none, false, true, id⟩).1
    DupAction.skip rfl
  exact ⟨h.1, h.2.1, h.2.2⟩

/-- **C9**: replaying the event trace of any `rename_current` invocation
from the initial handle state, no `os.rename` call and no document open is
ever issued while a document handle is still open — the handle is always
released first. -/
theorem doc_released_before_rename_and_reopen (st : RenamerState)
    (inp : RenameInput) :
    docDisciplineViolation st.doc_open (rename_current st inp).events =
      false := by
  unfold rename_current
  by_cases hval : validIndex st
  case neg =>
    rw [if_neg hval]
    simp [docDisciplineViolation]
  rw [if_pos hval]
  dsimp only []
  by_cases hsame : inp.normcase (newPath st inp.new_name_entry) =
      inp.normcase (oldPath st)
  · rw [if_pos hsame]
    rw [close_doc_fst, ddv_append, ddv_close, runDoc_close]
    simp only [Bool.false_or]
    exact ddv_load_closed _ _ rfl
  · rw [if_neg hsame]
    by_cases hc : newPath st inp.new_name_entry ∈ inp.fs
    · rw [if_pos hc]
      rcases hra : resolvedAction st inp with _ | a
      · exact ddv_choiceEvents st _
      · cases a
        · exact ddv_choiceEvents st _
        · have h := attemptRename_ddv (afterChoiceBookkeeping st inp) inp.fs
            inp.rename_ok (oldPath st)
            (addNumbering inp.fs st.folder (strip inp.new_name_entry)
              (splitextExt (currentFile st)))
            (currentFile st) (choiceEvents st)
            (ddv_choiceEvents st _) (runDoc_choiceEvents st _)
          rwa [(bookkeeping_fields st inp).2.2.2] at h
        · dsimp only []
          rw [ddv_append, ddv_choiceEvents, runDoc_choiceEvents]
          simp only [Bool.false_or]
          have h := skip_current_ddv (afterChoiceBookkeeping st inp)
          rwa [(bookkeeping_fields st inp).2.2.2] at h
    · rw [if_neg hc]
      exact attemptRename_ddv st inp.fs inp.rename_ok (oldPath st)
        (newPath st inp.new_name_entry) (currentFile st) [] rfl rfl

/-- **C6** (amended): from any state satisfying the Cursor invariant
`Cursor ∈ [0, len(FileList)]`, the invariant is preserved by a rename
attempt, by previous-file and next-file navigation, and by a folder change;
a skip preserves it provided `Cursor < len(FileList)` before the skip.  (A
skip issued at `Cursor = len(FileList)` — reachable after declining the
finished-dialog and cancelling the subsequent folder selection — increments
past the bound, so the unconditional claim fails; see the counterexample.) -/
theorem cursor_invariant_preserved (st : RenamerState) (inp : RenameInput)
    (scan : String → List String) (attempts : List FolderAttempt)
    (h : cursorInv st) :
    cursorInv (rename_current st inp).state ∧
    cursorInv (prev_file st).1 ∧
    cursorInv (next_file st).1 ∧
    cursorInv (change_folder scan st attempts).1 ∧
    (st.current_index < (st.pdf_files.length : Int) →
      cursorInv (skip_current st).1) := by
  refine ⟨rename_current_cursorInv st inp h, prev_file_cursorInv st h,
    next_file_cursorInv st h, change_folder_cursorInv scan st attempts h, ?_⟩
  intro hlt
  constructor
  · rw [(skip_current_fields st).2.1]
    have := h.1
    omega
  · rw [(skip_current_fields st).2.1, (skip_current_fields st).1]
    omega

/-- Witness for the amended C6 at a concrete in-range state. -/
theorem cursor_invariant_preserved_witness :
    cursorInv ⟨"/d", ["a.pdf"], 0, DupChoice.ask, false⟩ ∧
    (cursorInv (rename_current ⟨"/d", ["a.pdf"], 0, DupChoice.ask, false⟩
        ⟨"x", [], none, false, true, id⟩).state ∧
      cursorInv (prev_file ⟨"/d", ["a.pdf"], 0, DupChoice.ask, false⟩).1 ∧
      cursorInv (next_file ⟨"/d", ["a.pdf"], 0, DupChoice.ask, false⟩).1 ∧
      cursorInv (change_folder (fun _ => [])
        ⟨"/d", ["a.pdf"], 0, DupChoice.ask, false⟩ []).1 ∧
      ((⟨"/d", ["a.pdf"], 0, DupChoice.ask, false⟩ :
          RenamerState).current_index <
          (((⟨"/d", ["a.pdf"], 0, DupChoice.ask, false⟩ :
            RenamerState).pdf_files.length : Int)) →
        cursorInv (skip_current
          ⟨"/d", ["a.pdf"], 0, DupChoice.ask, false⟩).1)) := by
  refine ⟨by decide, ?_⟩
  exact cursor_invariant_preserved ⟨"/d", ["a.pdf"], 0, DupChoice.ask, false⟩
    ⟨"x", [], none, false, true, id⟩ (fun _ => []) [] (by decide)

/-- Counterexample to C6 as stated: skipping at `Cursor = len(FileList)`
(the "all processed" position, reachable through the finished-dialog and a
cancelled folder change) moves the Cursor to `len + 1`, outside `[0, len]`. -/
theorem cursor_invariant_skip_cex :
    cursorInv ⟨"/d", ["a.pdf"], 1, DupChoice.ask, false⟩ ∧
    ¬ cursorInv
        (skip_current ⟨"/d", ["a.pdf"], 1, DupChoice.ask, false⟩).1 := by
  decide

/-- Counterexample to C8 as stated: selecting the directory that is already
the active folder while files are loaded is reported as a success, but
nothing is rescanned: FileList is not the fresh scan `[x.pdf, y.pdf]` and
the Cursor stays at 1 instead of being reset to 0. -/
theorem folder_change_same_folder_cex :
    (select_core (fun _ => ["x.pdf", "y.pdf"])
        ⟨"/a", ["x.pdf"], 1, DupChoice.ask, false⟩
        [⟨some "/a", false⟩]).2 = true ∧
    (select_core (fun _ => ["x.pdf", "y.pdf"])
        ⟨"/a", ["x.pdf"], 1, DupChoice.ask, false⟩
        [⟨some "/a", false⟩]).1 =
      ⟨"/a", ["x.pdf"], 1, DupChoice.ask, false⟩ ∧
    ¬ (select_core (fun _ => ["x.pdf", "y.pdf"])
        ⟨"/a", ["x.pdf"], 1, DupChoice.ask, false⟩
        [⟨some "/a", false⟩]).1.current_index = 0 := by
  decide

/-- **C8** (amended): a successful folder selection either installs the
selected folder with FileList the fresh (nonempty) scan of that folder and
Cursor reset to 0, or returns the state completely unchanged — the latter
exactly when the selected folder is already the active folder with a
nonempty FileList, or when the dialog was cancelled and the user declined
to exit. -/
theorem folder_selection_success_spec (scan : String → List String)
    (st : RenamerState) (attempts : List FolderAttempt)
    (hok : (select_core scan st attempts).2 = true) :
    (select_core scan st attempts).1 = st ∨
    ((select_core scan st attempts).1.pdf_files =
        scan (select_core scan st attempts).1.folder ∧
      (select_core scan st attempts).1.pdf_files ≠ [] ∧
      (select_core scan st attempts).1.current_index = 0) := by
  induction attempts with
  | nil => exact Or.inl rfl
  | cons att rest ih =>
    unfold select_core at hok ⊢
    cases hsel : att.selection with
    | none => exact Or.inl rfl
    | some f =>
      dsimp only []
      split
      next => exact Or.inl rfl
      next h1 =>
        split
        next hne =>
          right
          exact ⟨rfl, hne, rfl⟩
        next h2 =>
          rw [hsel] at hok
          dsimp only [] at hok
          rw [if_neg h1, if_neg h2] at hok
          exact ih hok

/-- Witness for the amended C8: selecting a different folder with PDFs
resets folder, FileList and Cursor. -/
theorem folder_selection_success_spec_witness :
    (select_core (fun _ => ["p.pdf"])
        ⟨"/a", ["x.pdf"], 1, DupChoice.ask, false⟩
        [⟨some "/b", false⟩]).2 = true ∧
    ((select_core (fun _ => ["p.pdf"])
        ⟨"/a", ["x.pdf"], 1, DupChoice.ask, false⟩
        [⟨some "/b", false⟩]).1 =
        ⟨"/a", ["x.pdf"], 1, DupChoice.ask, false⟩ ∨
      ((select_core (fun _ => ["p.pdf"])
          ⟨"/a", ["x.pdf"], 1, DupChoice.ask, false⟩
          [⟨some "/b", false⟩]).1.pdf_files =
          (fun _ => ["p.pdf"])
            ((select_core (fun _ => ["p.pdf"])
              ⟨"/a", ["x.pdf"], 1, DupChoice.ask, false⟩
              [⟨some "/b", false⟩]).1.folder) ∧
        (select_core (fun _ => ["p.pdf"])
          ⟨"/a", ["x.pdf"], 1, DupChoice.ask, false⟩
          [⟨some "/b", false⟩]).1.pdf_files ≠ [] ∧
        (select_core (fun _ => ["p.pdf"])
          ⟨"/a", ["x.pdf"], 1, DupChoice.ask, false⟩
          [⟨some "/b", false⟩]).1.current_index = 0)) := by
  refine ⟨by decide, ?_⟩
  exact folder_selection_success_spec (fun _ => ["p.pdf"])
    ⟨"/a", ["x.pdf"], 1, DupChoice.ask, false⟩
    [⟨some "/b", false⟩] (by decide)

end Theorems

end PDFRenamer
